import Mathlib

/- Shallow embedding of the live detection session and alerting controller of the
   Real-Time-Object-Detection frontend:
   - src/frontend/src/hooks/useAlertSound.ts  (Alert Audio Engine)
   - src/frontend/src/pages/LiveStream.tsx    (Status Poller, Stream Session Controller)
   - src/frontend/src/pages/Upload.tsx        (one-shot upload flow)
   - src/frontend/src/lib/api.ts              (backend collaborator shapes)
   Timers are modelled as an explicit environment of armed interval handles with
   their periods; async fetches as explicitly issued/resolved pending requests;
   React state updates and effect reruns as explicit state transitions. -/

/-- One detected object, the TS shape `class`/`confidence`. -/
structure DetObj where
  cls : String
  confidence : Rat
deriving DecidableEq

/-- Shape of the GET /detection-status response consumed by `getDetectionStatus`
    in api.ts: `detected` required, `timestamp` and `objects` optional
    (`none` models an absent JSON key). -/
structure Status where
  detected : Bool
  timestamp : Option String
  objects : Option (List DetObj)
deriving DecidableEq

/-- The LiveStream page's `detectionStatus` React state value. Declared in TS with
    `detected` and optional `objects`; the object spread in `fetchStatus` can also
    carry a `timestamp` key into the runtime object, so it is modelled here too. -/
structure DetectionState where
  detected : Bool
  timestamp : Option String
  objects : Option (List DetObj)
deriving DecidableEq

/-- Observable operations issued against the one HTMLAudioElement. -/
inductive AudioEvent where
  | rewind
  | play
  | pause
  | mute
  | unmute
deriving DecidableEq

/-- State of the HTMLAudioElement owned by useAlertSound. -/
structure AudioState where
  currentTime : Nat
  paused : Bool
  muted : Bool
deriving DecidableEq

/-- Environment of armed interval timers: pairs of (handle, period in ms), with a
    fresh-handle counter. `setInterval` arms a fresh handle; `clearInterval`
    removes the handle (a no-op when the handle is not armed, as in JS). -/
structure Timers where
  armed : List (Nat × Nat)
  next : Nat
deriving DecidableEq

def setIntervalT (ts : Timers) (periodMs : Nat) : Timers × Nat :=
  ({ armed := ts.armed ++ [(ts.next, periodMs)], next := ts.next + 1 }, ts.next)

def clearIntervalT (ts : Timers) (id : Nat) : Timers :=
  { ts with armed := ts.armed.filter (fun q => q.1 != id) }

def ts0 : Timers := { armed := [], next := 0 }

/-- The refs of useAlertSound: `alertSoundRef` (none = not yet constructed or
    disposed), `alertInterval` and `unlockedRef`. -/
structure AlertEngine where
  audio : Option AudioState
  alertInterval : Option Nat
  unlocked : Bool
deriving DecidableEq

/-- Result of an engine operation: new engine state, new timer environment, and
    the audio operations issued during the call, in order. -/
structure EngineResult where
  engine : AlertEngine
  timers : Timers
  events : List AudioEvent
deriving DecidableEq

/-- useAlertSound.playAlertSound(shouldPlay). Mirrors the source: returns at once
    if the audio ref is null; otherwise clears any existing interval, then either
    rewinds+plays and arms a fresh 2000ms repeat interval, or pauses and rewinds. -/
def playAlertSound (shouldPlay : Bool) (e : AlertEngine) (ts : Timers) : EngineResult :=
  match e.audio with
  | none => { engine := e, timers := ts, events := [] }
  | some a =>
    let ts1 := match e.alertInterval with
      | some id => clearIntervalT ts id
      | none => ts
    let e1 : AlertEngine := { e with alertInterval := none }
    if shouldPlay then
      let a1 : AudioState := { a with currentTime := 0, paused := false }
      let p := setIntervalT ts1 2000
      { engine := { e1 with audio := some a1, alertInterval := some p.2 },
        timers := p.1,
        events := [AudioEvent.rewind, AudioEvent.play] }
    else
      let a1 : AudioState := { a with paused := true, currentTime := 0 }
      { engine := { e1 with audio := some a1 }, timers := ts1,
        events := [AudioEvent.pause, AudioEvent.rewind] }

/-- The body of the 2000ms interval callback armed by playAlertSound: does nothing
    when the audio ref has become null, otherwise rewinds and plays. -/
def alertTick (e : AlertEngine) : AlertEngine × List AudioEvent :=
  match e.audio with
  | none => (e, [])
  | some a =>
    ({ e with audio := some { a with currentTime := 0, paused := false } },
     [AudioEvent.rewind, AudioEvent.play])

/-- useAlertSound.enableAlertSound: no-op when already unlocked or when the audio
    ref is null; otherwise mute, rewind, play (rejection ignored), pause, unmute,
    and record unlocked = true. -/
def enableAlertSound (e : AlertEngine) : AlertEngine × List AudioEvent :=
  if e.unlocked then (e, [])
  else
    match e.audio with
    | none => (e, [])
    | some a =>
      let a1 : AudioState := { a with muted := false, paused := true, currentTime := 0 }
      ({ e with audio := some a1, unlocked := true },
       [AudioEvent.mute, AudioEvent.rewind, AudioEvent.play,
        AudioEvent.pause, AudioEvent.unmute])

/-- The cleanup of useAlertSound's init effect: pause and release the audio
    element if present, and clear the repeat interval if its ref is set (the ref
    itself is not nulled, matching the source). -/
def alertCleanup (e : AlertEngine) (ts : Timers) : EngineResult :=
  let p : AlertEngine × List AudioEvent :=
    match e.audio with
    | some _ => ({ e with audio := none }, [AudioEvent.pause])
    | none => (e, [])
  let ts1 := match e.alertInterval with
    | some id => clearIntervalT ts id
    | none => ts
  { engine := p.1, timers := ts1, events := p.2 }

/-- Audio element as freshly constructed by `new Audio(url)`. -/
def initAudio : AudioState := { currentTime := 0, paused := true, muted := false }

/-- Engine state right after useAlertSound's init effect has run. -/
def initEngine : AlertEngine :=
  { audio := some initAudio, alertInterval := none, unlocked := false }

/-- Selected tab of the LiveStream page. -/
inductive Tab where
  | webcam
  | rtsp
deriving DecidableEq

/-- React state and refs of the LiveStream page, plus the set of in-flight status
    fetches (`pendingFetches`) and the log of values applied to
    `setDetectionStatus` (the poller's onUpdate), used to observe update order. -/
structure LiveStreamState where
  activeTab : Tab
  rtspUrl : String
  cameraId : String
  isStreaming : Bool
  detectionStatus : DetectionState
  statusInterval : Option Nat
  prevDetectionStatus : Bool
  pendingFetches : Nat
  updateLog : List DetectionState
deriving DecidableEq

/-- The object spread `({...prev, ...status})` in fetchStatus: keys present in the
    response override, absent keys keep the previous value; `detected` is always
    present in the response shape. -/
def mergeStatus (prev : DetectionState) (st : Status) : DetectionState :=
  { detected := st.detected,
    timestamp := match st.timestamp with
      | some t => some t
      | none => prev.timestamp,
    objects := match st.objects with
      | some l => some l
      | none => prev.objects }

/-- Fallback applied on a failed fetch: the literal `detected:false, objects:[]`
    replaces the whole state (no timestamp key). -/
def fallbackSnapshot : DetectionState :=
  { detected := false, timestamp := none, objects := some [] }

/-- A call to fetchStatus issues one backend request; its result is applied later
    when the promise settles. -/
def issueFetch (s : LiveStreamState) : LiveStreamState :=
  { s with pendingFetches := s.pendingFetches + 1 }

/-- Settlement of one in-flight fetch. `some st` = getDetectionStatus resolved
    with `st`; `none` = it rejected (network error or non-2xx). Mirrors the body
    of fetchStatus after the await: on success merge the status over the previous
    state and record `prevDetectionStatus`; on error apply the fallback. There is
    no still-active gate in the source, so the update applies unconditionally. -/
def resolveFetch (r : Option Status) (s : LiveStreamState) : LiveStreamState :=
  if s.pendingFetches = 0 then s
  else
    match r with
    | some st =>
      let v := mergeStatus s.detectionStatus st
      { s with pendingFetches := s.pendingFetches - 1,
               detectionStatus := v,
               updateLog := s.updateLog ++ [v],
               prevDetectionStatus := st.detected }
    | none =>
      { s with pendingFetches := s.pendingFetches - 1,
               detectionStatus := fallbackSnapshot,
               updateLog := s.updateLog ++ [fallbackSnapshot] }

/-- An issued fetch that settles with result `r` before anything else happens. -/
def fetchStatusRun (r : Option Status) (s : LiveStreamState) : LiveStreamState :=
  resolveFetch r (issueFetch s)

/-- LiveStream.startStream: clears any existing poll interval, issues the initial
    fetch, arms the 1000ms poll interval, sets isStreaming. No validation of the
    selected source is performed anywhere in the function. -/
def startStream (s : LiveStreamState) (ts : Timers) : LiveStreamState × Timers :=
  let ts1 := match s.statusInterval with
    | some id => clearIntervalT ts id
    | none => ts
  let s1 := issueFetch s
  let p := setIntervalT ts1 1000
  ({ s1 with statusInterval := some p.2, isStreaming := true }, p.1)

/-- LiveStream.stopStream: clears the poll interval (nulling its ref) and leaves
    streaming mode. -/
def stopStream (s : LiveStreamState) (ts : Timers) : LiveStreamState × Timers :=
  let ts1 := match s.statusInterval with
    | some id => clearIntervalT ts id
    | none => ts
  ({ s with statusInterval := none, isStreaming := false }, ts1)

/-- LiveStream.toggleStream. -/
def toggleStream (s : LiveStreamState) (ts : Timers) : LiveStreamState × Timers :=
  if s.isStreaming then stopStream s ts else startStream s ts

/-- The cleanup of the LiveStream settings effect (runs on teardown and on
    reconfiguration): clears the poll interval if its ref is set; the ref itself
    is not nulled, matching the source. -/
def lsCleanup (s : LiveStreamState) (ts : Timers) : LiveStreamState × Timers :=
  match s.statusInterval with
  | some id => (s, clearIntervalT ts id)
  | none => (s, ts)

/-- Combined result of tearing down the LiveStream view. -/
structure TeardownResult where
  stream : LiveStreamState
  engine : AlertEngine
  timers : Timers
  events : List AudioEvent
deriving DecidableEq

/-- Teardown of the LiveStream view: React runs the settings-effect cleanup and
    the useAlertSound init-effect cleanup. -/
def viewTeardown (s : LiveStreamState) (e : AlertEngine) (ts : Timers) : TeardownResult :=
  let p := lsCleanup s ts
  let r := alertCleanup e p.2
  { stream := p.1, engine := r.engine, timers := r.timers, events := r.events }

/-- Initial `detectionStatus` React state: `useState(\x7b detected: false \x7d)`. -/
def initDetection : DetectionState :=
  { detected := false, timestamp := none, objects := none }

/-- Initial LiveStream page state. -/
def initLS : LiveStreamState :=
  { activeTab := Tab.webcam, rtspUrl := "", cameraId := "0", isStreaming := false,
    detectionStatus := initDetection, statusInterval := none,
    prevDetectionStatus := false, pendingFetches := 0, updateLog := [] }

/-- The data of a browser File relevant to the Upload page. -/
structure FileInfo where
  name : String
  mime : String
  size : Nat
deriving DecidableEq

/-- Upload.tsx supportedFormats. -/
def supportedFormats : List String :=
  ["image/jpeg", "image/png", "image/gif", "video/mp4", "video/webm", "video/quicktime"]

/-- Upload.tsx validateFile: returns whether the file passes, together with the
    error message written to the error state (none means setError(null)). -/
def validateFile (f : FileInfo) : Bool × Option String :=
  if f.mime ∈ supportedFormats then
    if f.size > 50 * 1024 * 1024 then
      (false, some "File is too large. Maximum size is 50MB.")
    else (true, none)
  else (false, some "Unsupported file type. Please upload an image or video file.")

/-- Shape of the POST /upload success response held in the `result` state. -/
structure AnalyzeResult where
  message : String
  resultUrl : Option String
  detections : Option (List DetObj)
deriving DecidableEq

/-- Upload page status state. -/
inductive UploadStatus where
  | idle
  | uploading
  | success
  | error
deriving DecidableEq

/-- React state of the Upload page. `result` carries an allocation stamp modelling
    JS object identity: each successful upload response is a fresh object, so its
    `detections` array reference differs from every earlier one — the stamp lets
    the effect-dependency comparison reproduce reference equality. `lastAlert` is
    the argument of the most recent playAlertSound call issued by this page;
    `uploadRequests` logs every file actually sent to POST /upload. -/
structure UploadState where
  file : Option FileInfo
  status : UploadStatus
  error : Option String
  result : Option (Nat × AnalyzeResult)
  stampCounter : Nat
  lastAlert : Bool
  uploadRequests : List FileInfo
deriving DecidableEq

/-- Identity of the value `result?.detections` as the effect-dependency array sees
    it: none models undefined (equal to any other undefined), some stamp models an
    array reference (equal only to itself). -/
def depOf (s : UploadState) : Option Nat :=
  match s.result with
  | none => none
  | some p =>
    match p.2.detections with
    | none => none
    | some _ => some p.1

/-- The condition of the alert effect: `result?.detections && result.detections.length > 0`. -/
def heldDetectionsNonEmpty (s : UploadState) : Bool :=
  match s.result with
  | none => false
  | some p =>
    match p.2.detections with
    | none => false
    | some l => decide (0 < l.length)

/-- Whether an analyze response would sound the alert. -/
def nonEmptyDetections (r : AnalyzeResult) : Bool :=
  match r.detections with
  | none => false
  | some l => decide (0 < l.length)

/-- Body of the alert effect in Upload.tsx: its cleanup issues playAlertSound(false)
    and the fresh run issues playAlertSound(detections non-empty), so the net last
    intent is the fresh value. -/
def runAlertEffect (s : UploadState) : UploadState :=
  { s with lastAlert := heldDetectionsNonEmpty s }

/-- React rerenders after an event handler; the alert effect reruns exactly when
    its dependency `result?.detections` changed (by reference). -/
def reconcileEffect (old cur : UploadState) : UploadState :=
  if depOf cur = depOf old then cur else runAlertEffect cur

/-- Upload.tsx handleFileChange / handleDrop on a selected file: hold the file
    only when validation passes; validateFile writes the error state either way. -/
def handleFileChange (f : FileInfo) (s : UploadState) : UploadState :=
  let v := validateFile f
  if v.1 then { s with file := some f, error := none }
  else { s with error := v.2 }

/-- Upload.tsx handleRemoveFile. -/
def handleRemoveFile (s : UploadState) : UploadState :=
  { s with file := none, result := none, error := none }

/-- Upload.tsx handleUpload, with the awaited uploadFile settlement passed in:
    returns unchanged when no file is held; otherwise issues the request, and on
    success stores the fresh response while on failure records the message, enters
    the error status and forces playAlertSound(false). The held result is NOT
    cleared on failure, matching the source. -/
def handleUpload (resp : Except String AnalyzeResult) (s : UploadState) : UploadState :=
  match s.file with
  | none => s
  | some f =>
    let s1 : UploadState :=
      { s with status := UploadStatus.uploading, error := none,
               uploadRequests := s.uploadRequests ++ [f] }
    match resp with
    | Except.ok r =>
      { s1 with result := some (s1.stampCounter, r),
                stampCounter := s1.stampCounter + 1,
                status := UploadStatus.success }
    | Except.error msg =>
      { s1 with error := some msg, status := UploadStatus.error, lastAlert := false }

/-- User-visible events of the Upload page; clickUpload carries how the backend
    call settles. -/
inductive UploadEvent where
  | selectFile (f : FileInfo)
  | removeFile
  | clickUpload (resp : Except String AnalyzeResult)

/-- One event followed by the React rerender and conditional alert-effect rerun. -/
def uploadStep (s : UploadState) (e : UploadEvent) : UploadState :=
  let s1 := match e with
    | UploadEvent.selectFile f => handleFileChange f s
    | UploadEvent.removeFile => handleRemoveFile s
    | UploadEvent.clickUpload resp => handleUpload resp s
  reconcileEffect s s1

/-- Upload page state right after mount: the alert effect has run once with no
    result held, so the last alert intent is false. -/
def initUpload : UploadState :=
  { file := none, status := UploadStatus.idle, error := none, result := none,
    stampCounter := 0, lastAlert := false, uploadRequests := [] }

/-- A whole interaction with the Upload page from mount. -/
def runUpload (es : List UploadEvent) : UploadState :=
  es.foldl uploadStep initUpload

/-- The timer environment holds exactly the engine's registered repeat interval:
    the armed list is the content of the alertInterval ref (with its 2000ms
    period) and nothing else. -/
def wellFormed (e : AlertEngine) (ts : Timers) : Prop :=
  ts.armed = (e.alertInterval.map (fun id => (id, 2000))).toList

/-- One setAlert call folded over engine-plus-timers state. -/
def stepAlert (p : AlertEngine × Timers) (b : Bool) : AlertEngine × Timers :=
  let r := playAlertSound b p.1 p.2
  (r.engine, r.timers)

/-- A finite sequence of setAlert calls. -/
def runSetAlerts (args : List Bool) (e : AlertEngine) (ts : Timers) : AlertEngine × Timers :=
  args.foldl stepAlert (e, ts)

/-- k repetitions of a poll tick whose fetch fails and settles before the next
    tick. -/
def ticksFail : Nat → LiveStreamState → LiveStreamState
  | 0, s => s
  | k + 1, s => ticksFail k (fetchStatusRun none s)

/-- A started session whose status fetches all fail: startStream issues the
    initial fetch, it settles with a failure, then n - 1 further ticks each fetch
    and fail. -/
def runPollFailures (s : LiveStreamState) (ts : Timers) (n : Nat) :
    LiveStreamState × Timers :=
  let p := startStream s ts
  (ticksFail (n - 1) (resolveFetch none p.1), p.2)

/-- Any operation the engine's owner can perform on it during the lifetime of the
    audio resource and beyond. -/
inductive EngineOp where
  | setAlert (b : Bool)
  | unlock
  | tick
  | dispose

def engineStep (p : AlertEngine × Timers) (op : EngineOp) : AlertEngine × Timers :=
  match op with
  | EngineOp.setAlert b =>
    let r := playAlertSound b p.1 p.2
    (r.engine, r.timers)
  | EngineOp.unlock => ((enableAlertSound p.1).1, p.2)
  | EngineOp.tick => ((alertTick p.1).1, p.2)
  | EngineOp.dispose =>
    let r := alertCleanup p.1 p.2
    (r.engine, r.timers)

def runEngineOps (ops : List EngineOp) (e : AlertEngine) (ts : Timers) :
    AlertEngine × Timers :=
  ops.foldl engineStep (e, ts)

/-- Every file ever sent to POST /upload, and any currently held file, passed
    validateFile. -/
def uploadFilesValid (s : UploadState) : Prop :=
  (∀ g ∈ s.uploadRequests, (validateFile g).1 = true) ∧
  (∀ g, s.file = some g → (validateFile g).1 = true)

/-- Consistency of the Upload page's alert with its held result: the alert is on
    only while the held detections are non-empty, and every held result's stamp is
    older than the stamp counter (freshness of object identity). -/
def alertInv (s : UploadState) : Prop :=
  (s.lastAlert = true → heldDetectionsNonEmpty s = true) ∧
  (∀ n r, s.result = some (n, r) → n < s.stampCounter)

theorem playAlert_true_spec (e : AlertEngine) (ts : Timers) (a : AudioState)
    (h : e.audio = some a) (hwf : wellFormed e ts) :
    (playAlertSound true e ts).engine.audio
        = some { a with currentTime := 0, paused := false } ∧
    (playAlertSound true e ts).engine.alertInterval = some ts.next ∧
    (playAlertSound true e ts).engine.unlocked = e.unlocked ∧
    (playAlertSound true e ts).timers.armed = [(ts.next, 2000)] ∧
    (playAlertSound true e ts).timers.next = ts.next + 1 ∧
    (playAlertSound true e ts).events = [AudioEvent.rewind, AudioEvent.play] := by
  cases hai : e.alertInterval with
  | none =>
    simp only [wellFormed, hai, Option.map_none', Option.toList_none] at hwf
    simp [playAlertSound, h, hai, setIntervalT, hwf]
  | some id =>
    simp only [wellFormed, hai, Option.map_some', Option.toList_some] at hwf
    simp [playAlertSound, h, hai, setIntervalT, clearIntervalT, hwf]

theorem playAlert_false_spec (e : AlertEngine) (ts : Timers) (a : AudioState)
    (h : e.audio = some a) (hwf : wellFormed e ts) :
    (playAlertSound false e ts).engine.audio
        = some { a with paused := true, currentTime := 0 } ∧
    (playAlertSound false e ts).engine.alertInterval = none ∧
    (playAlertSound false e ts).engine.unlocked = e.unlocked ∧
    (playAlertSound false e ts).timers.armed = [] ∧
    (playAlertSound false e ts).timers.next = ts.next ∧
    (playAlertSound false e ts).events = [AudioEvent.pause, AudioEvent.rewind] := by
  cases hai : e.alertInterval with
  | none =>
    simp only [wellFormed, hai, Option.map_none', Option.toList_none] at hwf
    simp [playAlertSound, h, hai, hwf]
  | some id =>
    simp only [wellFormed, hai, Option.map_some', Option.toList_some] at hwf
    simp [playAlertSound, h, hai, clearIntervalT, hwf]

theorem stepAlert_preserves (p : AlertEngine × Timers) (b : Bool)
    (ha : p.1.audio.isSome) (hwf : wellFormed p.1 p.2) :
    (stepAlert p b).1.audio.isSome ∧ wellFormed (stepAlert p b).1 (stepAlert p b).2 := by
  obtain ⟨a, h⟩ := Option.isSome_iff_exists.mp ha
  cases b with
  | false =>
    obtain ⟨h1, h2, h3, h4, h5, h6⟩ := playAlert_false_spec p.1 p.2 a h hwf
    refine ⟨?_, ?_⟩
    · simp [stepAlert, h1]
    · simp [stepAlert, wellFormed, h2, h4]
  | true =>
    obtain ⟨h1, h2, h3, h4, h5, h6⟩ := playAlert_true_spec p.1 p.2 a h hwf
    refine ⟨?_, ?_⟩
    · simp [stepAlert, h1]
    · simp [stepAlert, wellFormed, h2, h4]

theorem runSetAlerts_preserves (args : List Bool) (e : AlertEngine) (ts : Timers)
    (ha : e.audio.isSome) (hwf : wellFormed e ts) :
    (runSetAlerts args e ts).1.audio.isSome ∧
    wellFormed (runSetAlerts args e ts).1 (runSetAlerts args e ts).2 := by
  induction args generalizing e ts with
  | nil => exact ⟨ha, hwf⟩
  | cons b rest ih =>
    have h1 := stepAlert_preserves (e, ts) b ha hwf
    have h2 := ih (stepAlert (e, ts) b).1 (stepAlert (e, ts) b).2 h1.1 h1.2
    simpa [runSetAlerts, List.foldl_cons] using h2

theorem runSetAlerts_concat (args : List Bool) (b : Bool) (e : AlertEngine) (ts : Timers) :
    runSetAlerts (args ++ [b]) e ts = stepAlert (runSetAlerts args e ts) b := by
  simp [runSetAlerts, List.foldl_append]

theorem alertTick_events (e : AlertEngine) (a : AudioState) (h : e.audio = some a) :
    (alertTick e).2 = [AudioEvent.rewind, AudioEvent.play] := by
  simp [alertTick, h]

/-- C1: across every finite sequence of setAlert calls the engine owns at most one
    armed repeat timer; a true call cancels the old timer, rewinds, plays and arms
    a fresh 2000ms timer whose tick reissues rewind+play; a false call cancels the
    timer, pauses and rewinds; so timer and playback state always match the last
    call's argument. -/
theorem setAlert_engine_invariant (e : AlertEngine) (ts : Timers) (args : List Bool)
    (ha : e.audio.isSome) (hwf : wellFormed e ts) :
    (runSetAlerts args e ts).2.armed.length ≤ 1 ∧
    wellFormed (runSetAlerts args e ts).1 (runSetAlerts args e ts).2 ∧
    (∀ xs, args = xs ++ [true] →
      ∃ id a, (runSetAlerts args e ts).1.alertInterval = some id ∧
        (runSetAlerts args e ts).2.armed = [(id, 2000)] ∧
        (runSetAlerts args e ts).1.audio = some a ∧
        a.paused = false ∧ a.currentTime = 0) ∧
    (∀ xs, args = xs ++ [false] →
      (runSetAlerts args e ts).1.alertInterval = none ∧
      (runSetAlerts args e ts).2.armed = [] ∧
      ∃ a, (runSetAlerts args e ts).1.audio = some a ∧
        a.paused = true ∧ a.currentTime = 0) ∧
    (∀ b, (playAlertSound b (runSetAlerts args e ts).1 (runSetAlerts args e ts).2).events =
      if b then [AudioEvent.rewind, AudioEvent.play]
      else [AudioEvent.pause, AudioEvent.rewind]) ∧
    (∀ a2, (runSetAlerts args e ts).1.audio = some a2 →
      (alertTick (runSetAlerts args e ts).1).2 = [AudioEvent.rewind, AudioEvent.play]) := by
  obtain ⟨hA, hW⟩ := runSetAlerts_preserves args e ts ha hwf
  refine ⟨?_, hW, ?_, ?_, ?_, ?_⟩
  · rw [hW]
    cases (runSetAlerts args e ts).1.alertInterval <;> simp
  · intro xs hx
    subst hx
    obtain ⟨hA2, hW2⟩ := runSetAlerts_preserves xs e ts ha hwf
    obtain ⟨a2, h2⟩ := Option.isSome_iff_exists.mp hA2
    obtain ⟨g1, g2, g3, g4, g5, g6⟩ :=
      playAlert_true_spec (runSetAlerts xs e ts).1 (runSetAlerts xs e ts).2 a2 h2 hW2
    rw [runSetAlerts_concat]
    exact ⟨(runSetAlerts xs e ts).2.next, { a2 with currentTime := 0, paused := false },
      g2, g4, g1, rfl, rfl⟩
  · intro xs hx
    subst hx
    obtain ⟨hA2, hW2⟩ := runSetAlerts_preserves xs e ts ha hwf
    obtain ⟨a2, h2⟩ := Option.isSome_iff_exists.mp hA2
    obtain ⟨g1, g2, g3, g4, g5, g6⟩ :=
      playAlert_false_spec (runSetAlerts xs e ts).1 (runSetAlerts xs e ts).2 a2 h2 hW2
    rw [runSetAlerts_concat]
    exact ⟨g2, g4, { a2 with paused := true, currentTime := 0 }, g1, rfl, rfl⟩
  · intro b
    obtain ⟨a2, h2⟩ := Option.isSome_iff_exists.mp hA
    cases b with
    | false =>
      obtain ⟨g1, g2, g3, g4, g5, g6⟩ :=
        playAlert_false_spec (runSetAlerts args e ts).1 (runSetAlerts args e ts).2 a2 h2 hW
      simpa using g6
    | true =>
      obtain ⟨g1, g2, g3, g4, g5, g6⟩ :=
        playAlert_true_spec (runSetAlerts args e ts).1 (runSetAlerts args e ts).2 a2 h2 hW
      simpa using g6
  · intro a2 h2
    exact alertTick_events _ a2 h2

/-- Witness for C1 at a concrete run of three calls on the freshly built engine. -/
theorem setAlert_engine_invariant_witness :
    (runSetAlerts [true, false, true] initEngine ts0).2.armed.length ≤ 1 :=
  (setAlert_engine_invariant initEngine ts0 [true, false, true]
    (by decide) (by unfold wellFormed; decide)).1

theorem fetchStatusRun_none_eq (s : LiveStreamState) :
    fetchStatusRun none s =
      { s with detectionStatus := fallbackSnapshot,
               updateLog := s.updateLog ++ [fallbackSnapshot] } := by
  simp [fetchStatusRun, issueFetch, resolveFetch]

theorem ticksFail_spec (k : Nat) (s : LiveStreamState) :
    (ticksFail k s).updateLog = s.updateLog ++ List.replicate k fallbackSnapshot ∧
    (ticksFail k s).statusInterval = s.statusInterval := by
  induction k generalizing s with
  | zero => simp [ticksFail]
  | succ k ih =>
    have h := ih (fetchStatusRun none s)
    rw [fetchStatusRun_none_eq] at h
    refine ⟨?_, ?_⟩
    · rw [show ticksFail (k + 1) s = ticksFail k (fetchStatusRun none s) from rfl,
        fetchStatusRun_none_eq, h.1]
      simp [List.replicate_succ]
    · rw [show ticksFail (k + 1) s = ticksFail k (fetchStatusRun none s) from rfl,
        fetchStatusRun_none_eq, h.2]

/-- C2: when every status fetch fails, after the initial fetch and N - 1 ticks the
    poller has applied onUpdate exactly N times, every time with the fallback
    snapshot detected:false, objects:[], and the 1000ms poll interval is still
    armed — the poller never stops itself on failure. -/
theorem poller_failure_fallback (n : Nat) (hn : 1 ≤ n) :
    (runPollFailures initLS ts0 n).1.updateLog = List.replicate n fallbackSnapshot ∧
    (runPollFailures initLS ts0 n).1.statusInterval = some 0 ∧
    (runPollFailures initLS ts0 n).2.armed = [(0, 1000)] := by
  obtain ⟨m, rfl⟩ : ∃ m, n = m + 1 := ⟨n - 1, (Nat.succ_pred_eq_of_pos hn).symm⟩
  have h := ticksFail_spec m (resolveFetch none (startStream initLS ts0).1)
  have e1 : (resolveFetch none (startStream initLS ts0).1).updateLog
      = [fallbackSnapshot] := by decide
  have e2 : (resolveFetch none (startStream initLS ts0).1).statusInterval
      = some 0 := by decide
  refine ⟨?_, ?_, ?_⟩
  · show (ticksFail (m + 1 - 1) (resolveFetch none (startStream initLS ts0).1)).updateLog
      = List.replicate (m + 1) fallbackSnapshot
    rw [Nat.add_sub_cancel, h.1, e1]
    simp [List.replicate_succ]
  · show (ticksFail (m + 1 - 1) (resolveFetch none (startStream initLS ts0).1)).statusInterval
      = some 0
    rw [Nat.add_sub_cancel, h.2, e2]
  · show (startStream initLS ts0).2.armed = [(0, 1000)]
    decide

/-- Witness for C2 at N = 3. -/
theorem poller_failure_fallback_witness :
    (runPollFailures initLS ts0 3).1.updateLog = List.replicate 3 fallbackSnapshot ∧
    (runPollFailures initLS ts0 3).1.statusInterval = some 0 ∧
    (runPollFailures initLS ts0 3).2.armed = [(0, 1000)] :=
  poller_failure_fallback 3 (by decide)

/-- C3 counterexample: start a session (the initial fetch is in flight), call
    stopStream, then let the in-flight fetch resolve. onUpdate runs anyway (the
    update log grows) and the session-visible snapshot is modified, because
    fetchStatus has no still-active gate. This refutes the claim that a fetch in
    flight at stop() never invokes onUpdate. -/
theorem stop_inflight_counterexample :
    ((stopStream (startStream initLS ts0).1 (startStream initLS ts0).2).1.updateLog = [] ∧
     (stopStream (startStream initLS ts0).1
        (startStream initLS ts0).2).1.detectionStatus.detected = false) ∧
    (resolveFetch (some { detected := true, timestamp := none, objects := none })
        (stopStream (startStream initLS ts0).1
          (startStream initLS ts0).2).1).updateLog.length = 1 ∧
    (resolveFetch (some { detected := true, timestamp := none, objects := none })
        (stopStream (startStream initLS ts0).1
          (startStream initLS ts0).2).1).detectionStatus.detected = true := by
  decide

/-- C3 amended: stop() cancels the poll interval, so no future tick fires, but it
    does not gate in-flight fetches: a fetch in flight when stop() was called
    still invokes onUpdate when it resolves, appending the merged snapshot and
    overwriting the session-visible detection state. -/
theorem stop_inflight_still_updates (s : LiveStreamState) (ts : Timers) (st : Status)
    (h : 0 < s.pendingFetches) :
    (stopStream s ts).1.statusInterval = none ∧
    (resolveFetch (some st) (stopStream s ts).1).updateLog
      = s.updateLog ++ [mergeStatus s.detectionStatus st] ∧
    (resolveFetch (some st) (stopStream s ts).1).detectionStatus
      = mergeStatus s.detectionStatus st := by
  have h0 : ¬ s.pendingFetches = 0 := Nat.pos_iff_ne_zero.mp h
  refine ⟨?_, ?_, ?_⟩ <;> simp [stopStream, resolveFetch, h0]

/-- Witness for the amended C3 with one in-flight fetch. -/
theorem stop_inflight_still_updates_witness :
    (resolveFetch (some { detected := true, timestamp := none, objects := none })
        (stopStream (startStream initLS ts0).1 (startStream initLS ts0).2).1).updateLog
      = (startStream initLS ts0).1.updateLog
        ++ [mergeStatus (startStream initLS ts0).1.detectionStatus
              { detected := true, timestamp := none, objects := none }] :=
  (stop_inflight_still_updates (startStream initLS ts0).1 (startStream initLS ts0).2
      { detected := true, timestamp := none, objects := none } (by decide)).2.1

/-- C5 counterexample: in remote-stream mode with the empty initial URL, pressing
    start (toggleStream from idle) still begins the session and arms the poller,
    refuting the claim that an empty source identifier prevents the start
    transition. -/
theorem startStream_empty_source_counterexample :
    ({ initLS with activeTab := Tab.rtsp } : LiveStreamState).rtspUrl = "" ∧
    (toggleStream { initLS with activeTab := Tab.rtsp } ts0).1.isStreaming = true ∧
    (toggleStream { initLS with activeTab := Tab.rtsp } ts0).1.statusInterval = some 0 ∧
    (toggleStream { initLS with activeTab := Tab.rtsp } ts0).2.armed = [(0, 1000)] := by
  decide

/-- C5 amended: startStream performs no validation of the selected source
    identifier: from every state — empty device id or empty URL included — it
    enters the Streaming state, arms the 1000ms poll interval and issues the
    initial status fetch. -/
theorem startStream_no_validation (s : LiveStreamState) (ts : Timers) :
    (startStream s ts).1.isStreaming = true ∧
    (startStream s ts).1.statusInterval = some ts.next ∧
    (ts.next, 1000) ∈ (startStream s ts).2.armed ∧
    (startStream s ts).1.pendingFetches = s.pendingFetches + 1 := by
  cases hai : s.statusInterval <;>
    simp [startStream, hai, setIntervalT, clearIntervalT, issueFetch]

/-- C6 counterexample: with a previous snapshot listing a knife, a successful poll
    delivering detected:false with the objects key absent leaves the old objects
    list in place — the new snapshot does not fully replace the previous one. -/
theorem snapshot_merge_counterexample :
    ({ detected := false, timestamp := none, objects := none } : Status).objects
      = none ∧
    (resolveFetch (some { detected := false, timestamp := none, objects := none })
        { initLS with
            detectionStatus :=
              { detected := true, timestamp := none,
                objects := some [{ cls := "knife", confidence := mkRat 92 100 }] },
            pendingFetches := 1 }).detectionStatus.objects
      = some [{ cls := "knife", confidence := mkRat 92 100 }] := by
  decide

/-- C6 amended: a successful poll tick merges the delivered snapshot over the
    previous state with object-spread semantics: detected is always replaced,
    while objects and timestamp are carried over from the prior snapshot exactly
    when the new snapshot omits them. -/
theorem snapshot_merge_semantics (s : LiveStreamState) (st : Status)
    (h : 0 < s.pendingFetches) :
    (resolveFetch (some st) s).detectionStatus.detected = st.detected ∧
    (st.objects = none →
      (resolveFetch (some st) s).detectionStatus.objects = s.detectionStatus.objects) ∧
    (∀ l, st.objects = some l →
      (resolveFetch (some st) s).detectionStatus.objects = some l) ∧
    (st.timestamp = none →
      (resolveFetch (some st) s).detectionStatus.timestamp
        = s.detectionStatus.timestamp) ∧
    (∀ t, st.timestamp = some t →
      (resolveFetch (some st) s).detectionStatus.timestamp = some t) := by
  have h0 : ¬ s.pendingFetches = 0 := Nat.pos_iff_ne_zero.mp h
  refine ⟨?_, ?_, ?_, ?_, ?_⟩
  · simp [resolveFetch, h0, mergeStatus]
  · intro ho
    simp [resolveFetch, h0, mergeStatus, ho]
  · intro l hl
    simp [resolveFetch, h0, mergeStatus, hl]
  · intro ht
    simp [resolveFetch, h0, mergeStatus, ht]
  · intro t ht
    simp [resolveFetch, h0, mergeStatus, ht]

/-- Witness for the amended C6 on a concrete pending fetch. -/
theorem snapshot_merge_semantics_witness :
    (resolveFetch (some { detected := true, timestamp := none, objects := none })
      { initLS with pendingFetches := 1 }).detectionStatus.detected = true ∧
    (resolveFetch (some { detected := true, timestamp := none, objects := none })
      { initLS with pendingFetches := 1 }).detectionStatus.objects
      = ({ initLS with pendingFetches := 1 } :
          LiveStreamState).detectionStatus.objects :=
  ⟨(snapshot_merge_semantics { initLS with pendingFetches := 1 }
      { detected := true, timestamp := none, objects := none } (by decide)).1,
   (snapshot_merge_semantics { initLS with pendingFetches := 1 }
      { detected := true, timestamp := none, objects := none } (by decide)).2.1 rfl⟩

theorem playAlertSound_unlocked (b : Bool) (e : AlertEngine) (ts : Timers) :
    (playAlertSound b e ts).engine.unlocked = e.unlocked := by
  cases h : e.audio <;> cases hai : e.alertInterval <;> cases b <;>
    simp [playAlertSound, h, hai, setIntervalT]

theorem alertTick_unlocked (e : AlertEngine) :
    (alertTick e).1.unlocked = e.unlocked := by
  cases h : e.audio <;> simp [alertTick, h]

theorem alertCleanup_unlocked (e : AlertEngine) (ts : Timers) :
    (alertCleanup e ts).engine.unlocked = e.unlocked := by
  cases h : e.audio <;> cases hai : e.alertInterval <;> simp [alertCleanup, h, hai]

theorem enableAlertSound_mono (e : AlertEngine) (h : e.unlocked = true) :
    (enableAlertSound e).1.unlocked = true := by
  simp [enableAlertSound, h]

theorem engineStep_mono (p : AlertEngine × Timers) (op : EngineOp)
    (h : p.1.unlocked = true) : (engineStep p op).1.unlocked = true := by
  cases op with
  | setAlert b =>
    show (playAlertSound b p.1 p.2).engine.unlocked = true
    rw [playAlertSound_unlocked]
    exact h
  | unlock => exact enableAlertSound_mono p.1 h
  | tick =>
    show (alertTick p.1).1.unlocked = true
    rw [alertTick_unlocked]
    exact h
  | dispose =>
    show (alertCleanup p.1 p.2).engine.unlocked = true
    rw [alertCleanup_unlocked]
    exact h

theorem runEngineOps_mono (ops : List EngineOp) (e : AlertEngine) (ts : Timers)
    (h : e.unlocked = true) : (runEngineOps ops e ts).1.unlocked = true := by
  induction ops generalizing e ts with
  | nil => exact h
  | cons op rest ih =>
    have h1 := engineStep_mono (e, ts) op h
    simpa [runEngineOps, List.foldl_cons] using
      ih (engineStep (e, ts) op).1 (engineStep (e, ts) op).2 h1

/-- C7: unlock is idempotent and the unlocked flag is monotone: a completed unlock
    on a constructed audio resource leaves unlocked true, every later unlock call
    performs no further mute/play/pause/unmute cycle and changes nothing, and no
    sequence of engine operations ever resets unlocked to false. -/
theorem unlock_idempotent_monotone (e : AlertEngine) (ts : Timers)
    (ops : List EngineOp) :
    (e.unlocked = true → enableAlertSound e = (e, [])) ∧
    (∀ a, e.audio = some a → (enableAlertSound e).1.unlocked = true) ∧
    (e.unlocked = true → (runEngineOps ops e ts).1.unlocked = true) := by
  refine ⟨?_, ?_, ?_⟩
  · intro h
    simp [enableAlertSound, h]
  · intro a ha
    by_cases h : e.unlocked = true
    · simp [enableAlertSound, h]
    · have h' : e.unlocked = false := by simpa using h
      simp [enableAlertSound, h', ha]
  · exact runEngineOps_mono ops e ts

/-- Witness for C7: unlock once on the fresh engine, then a second unlock is the
    identity, and unlocked survives further alert activity. -/
theorem unlock_idempotent_monotone_witness :
    enableAlertSound (enableAlertSound initEngine).1
      = ((enableAlertSound initEngine).1, []) ∧
    (runEngineOps [EngineOp.setAlert true, EngineOp.tick, EngineOp.setAlert false]
        (enableAlertSound initEngine).1 ts0).1.unlocked = true :=
  ⟨(unlock_idempotent_monotone (enableAlertSound initEngine).1 ts0 []).1 (by decide),
   (unlock_idempotent_monotone (enableAlertSound initEngine).1 ts0
      [EngineOp.setAlert true, EngineOp.tick, EngineOp.setAlert false]).2.2 (by decide)⟩

/-- C10: calling setAlert before the audio element exists or after it has been
    disposed is a total no-op — no timer armed or cleared, no audio operation
    issued, no state change — and the repeat-timer tick likewise performs nothing
    once the audio resource is gone. -/
theorem setAlert_noop_without_audio (b : Bool) (e : AlertEngine) (ts : Timers)
    (h : e.audio = none) :
    playAlertSound b e ts = { engine := e, timers := ts, events := [] } ∧
    alertTick e = (e, []) := by
  refine ⟨?_, ?_⟩
  · simp [playAlertSound, h]
  · simp [alertTick, h]

/-- Witness for C10 on the engine right after disposal. -/
theorem setAlert_noop_without_audio_witness :
    playAlertSound true (alertCleanup initEngine ts0).engine ts0
      = { engine := (alertCleanup initEngine ts0).engine, timers := ts0,
          events := [] } ∧
    alertTick (alertCleanup initEngine ts0).engine
      = ((alertCleanup initEngine ts0).engine, []) :=
  setAlert_noop_without_audio true (alertCleanup initEngine ts0).engine ts0 (by decide)

theorem filter_out_all (l : List (Nat × Nat)) (i : Nat)
    (h : ∀ q ∈ l, q.1 = i) : l.filter (fun q => q.1 != i) = [] := by
  induction l with
  | nil => rfl
  | cons q r ih =>
    have hq : q.1 = i := h q (List.mem_cons_self q r)
    have hr : ∀ x ∈ r, x.1 = i := fun x hx => h x (List.mem_cons_of_mem q hx)
    simp [List.filter_cons, hq, ih hr]

theorem filter_out_two (l : List (Nat × Nat)) (i j : Nat)
    (h : ∀ q ∈ l, q.1 = i ∨ q.1 = j) :
    (l.filter (fun q => q.1 != i)).filter (fun q => q.1 != j) = [] := by
  induction l with
  | nil => rfl
  | cons q r ih =>
    have hq := h q (List.mem_cons_self q r)
    have hr : ∀ x ∈ r, x.1 = i ∨ x.1 = j :=
      fun x hx => h x (List.mem_cons_of_mem q hx)
    by_cases hqi : q.1 = i
    · simp [List.filter_cons, hqi, ih hr]
    · rcases hq with hq | hq
      · exact absurd hq hqi
      · have hji : ¬(j = i) := fun hh => hqi (by rw [hq, hh])
        simp [List.filter_cons, hqi, hq, hji, ih hr]

theorem viewTeardown_armed (s : LiveStreamState) (e : AlertEngine) (ts : Timers)
    (h : ∀ q ∈ ts.armed, s.statusInterval = some q.1 ∨ e.alertInterval = some q.1) :
    (viewTeardown s e ts).timers.armed = [] := by
  cases hsi : s.statusInterval with
  | none =>
    cases hei : e.alertInterval with
    | none =>
      have hnil : ts.armed = [] := by
        apply List.eq_nil_iff_forall_not_mem.mpr
        intro q hq
        rcases h q hq with h1 | h1
        · rw [hsi] at h1
          exact Option.noConfusion h1
        · rw [hei] at h1
          exact Option.noConfusion h1
      simp [viewTeardown, lsCleanup, alertCleanup, hsi, hei, hnil]
    | some j =>
      have hcov : ∀ q ∈ ts.armed, q.1 = j := by
        intro q hq
        rcases h q hq with h1 | h1
        · rw [hsi] at h1
          exact Option.noConfusion h1
        · rw [hei] at h1
          injection h1 with h2
          exact h2.symm
      simp [viewTeardown, lsCleanup, alertCleanup, clearIntervalT, hsi, hei,
        filter_out_all ts.armed j hcov]
  | some i =>
    cases hei : e.alertInterval with
    | none =>
      have hcov : ∀ q ∈ ts.armed, q.1 = i := by
        intro q hq
        rcases h q hq with h1 | h1
        · rw [hsi] at h1
          injection h1 with h2
          exact h2.symm
        · rw [hei] at h1
          exact Option.noConfusion h1
      simp [viewTeardown, lsCleanup, alertCleanup, clearIntervalT, hsi, hei,
        filter_out_all ts.armed i hcov]
    | some j =>
      have hcov : ∀ q ∈ ts.armed, q.1 = i ∨ q.1 = j := by
        intro q hq
        rcases h q hq with h1 | h1
        · rw [hsi] at h1
          injection h1 with h2
          exact Or.inl h2.symm
        · rw [hei] at h1
          injection h1 with h2
          exact Or.inr h2.symm
      simp [viewTeardown, lsCleanup, alertCleanup, clearIntervalT, hsi, hei,
        filter_out_two ts.armed i j hcov]

theorem viewTeardown_audio (s : LiveStreamState) (e : AlertEngine) (ts : Timers) :
    (viewTeardown s e ts).engine.audio = none := by
  cases ha : e.audio <;> simp [viewTeardown, alertCleanup, ha]

theorem viewTeardown_fixed (s : LiveStreamState) (e : AlertEngine) (ts : Timers)
    (h1 : ts.armed = []) (h2 : e.audio = none) :
    viewTeardown s e ts = { stream := s, engine := e, timers := ts, events := [] } := by
  rcases ts with ⟨armed, nxt⟩
  obtain rfl : armed = [] := h1
  cases hsi : s.statusInterval <;> cases hei : e.alertInterval <;>
    simp [viewTeardown, lsCleanup, alertCleanup, clearIntervalT, hsi, hei, h2]

/-- C8: tearing down the LiveStream view clears every armed timer — the 1000ms
    poll interval and the 2000ms alert repeat timer — and pauses and releases the
    audio resource, so no alert sound continues and no tick fires afterwards; the
    teardown is safe when no timer is armed and is idempotent. -/
theorem teardown_clears_all (s : LiveStreamState) (e : AlertEngine) (ts : Timers)
    (h : ∀ q ∈ ts.armed, s.statusInterval = some q.1 ∨ e.alertInterval = some q.1) :
    (viewTeardown s e ts).timers.armed = [] ∧
    (viewTeardown s e ts).engine.audio = none ∧
    (∀ a, e.audio = some a → (viewTeardown s e ts).events = [AudioEvent.pause]) ∧
    (e.audio = none → (viewTeardown s e ts).events = []) ∧
    viewTeardown (viewTeardown s e ts).stream (viewTeardown s e ts).engine
        (viewTeardown s e ts).timers
      = { stream := (viewTeardown s e ts).stream,
          engine := (viewTeardown s e ts).engine,
          timers := (viewTeardown s e ts).timers, events := [] } := by
  refine ⟨viewTeardown_armed s e ts h, viewTeardown_audio s e ts, ?_, ?_, ?_⟩
  · intro a ha
    simp [viewTeardown, alertCleanup, ha]
  · intro ha
    simp [viewTeardown, alertCleanup, ha]
  · exact viewTeardown_fixed _ _ _ (viewTeardown_armed s e ts h)
      (viewTeardown_audio s e ts)

/-- Witness for C8 with both the poll interval and the alert repeat timer armed. -/
theorem teardown_clears_all_witness :
    (viewTeardown { initLS with statusInterval := some 0 }
        { initEngine with alertInterval := some 1 }
        { armed := [(0, 1000), (1, 2000)], next := 2 }).timers.armed = [] ∧
    (viewTeardown { initLS with statusInterval := some 0 }
        { initEngine with alertInterval := some 1 }
        { armed := [(0, 1000), (1, 2000)], next := 2 }).engine.audio = none :=
  ⟨(teardown_clears_all { initLS with statusInterval := some 0 }
      { initEngine with alertInterval := some 1 }
      { armed := [(0, 1000), (1, 2000)], next := 2 } (by decide)).1,
   (teardown_clears_all { initLS with statusInterval := some 0 }
      { initEngine with alertInterval := some 1 }
      { armed := [(0, 1000), (1, 2000)], next := 2 } (by decide)).2.1⟩

theorem reconcileEffect_fields (old cur : UploadState) :
    (reconcileEffect old cur).file = cur.file ∧
    (reconcileEffect old cur).uploadRequests = cur.uploadRequests ∧
    (reconcileEffect old cur).result = cur.result ∧
    (reconcileEffect old cur).error = cur.error ∧
    (reconcileEffect old cur).stampCounter = cur.stampCounter := by
  by_cases h : depOf cur = depOf old <;> simp [reconcileEffect, runAlertEffect, h]

theorem reconcileEffect_valid (old cur : UploadState) (h : uploadFilesValid cur) :
    uploadFilesValid (reconcileEffect old cur) := by
  have hx := reconcileEffect_fields old cur
  exact ⟨fun g hg => h.1 g (by rwa [hx.2.1] at hg),
         fun g hg => h.2 g (by rwa [hx.1] at hg)⟩

theorem handleFileChange_valid (f : FileInfo) (s : UploadState)
    (h : uploadFilesValid s) : uploadFilesValid (handleFileChange f s) := by
  obtain ⟨h1, h2⟩ := h
  by_cases hv : (validateFile f).1 = true
  · refine ⟨fun g hg => h1 g (by simpa [handleFileChange, hv] using hg),
            fun g hg => ?_⟩
    have hfg : f = g := by simpa [handleFileChange, hv] using hg
    exact hfg ▸ hv
  · have hv' : (validateFile f).1 = false := by simpa using hv
    exact ⟨fun g hg => h1 g (by simpa [handleFileChange, hv'] using hg),
           fun g hg => h2 g (by simpa [handleFileChange, hv'] using hg)⟩

theorem handleRemoveFile_valid (s : UploadState) (h : uploadFilesValid s) :
    uploadFilesValid (handleRemoveFile s) := by
  obtain ⟨h1, h2⟩ := h
  exact ⟨fun g hg => h1 g (by simpa [handleRemoveFile] using hg),
         fun g hg => by simp [handleRemoveFile] at hg⟩

theorem handleUpload_valid (resp : Except String AnalyzeResult) (s : UploadState)
    (h : uploadFilesValid s) : uploadFilesValid (handleUpload resp s) := by
  obtain ⟨h1, h2⟩ := h
  cases hf : s.file with
  | none =>
    rw [show handleUpload resp s = s by simp [handleUpload, hf]]
    exact ⟨h1, h2⟩
  | some f =>
    have hfv := h2 f hf
    cases resp with
    | ok r =>
      refine ⟨fun g hg => ?_, fun g hg => h2 g (by simpa [handleUpload, hf] using hg)⟩
      have hmem : g ∈ s.uploadRequests ∨ g = f := by
        simpa [handleUpload, hf, List.mem_append] using hg
      rcases hmem with hgm | rfl
      · exact h1 g hgm
      · exact hfv
    | error m =>
      refine ⟨fun g hg => ?_, fun g hg => h2 g (by simpa [handleUpload, hf] using hg)⟩
      have hmem : g ∈ s.uploadRequests ∨ g = f := by
        simpa [handleUpload, hf, List.mem_append] using hg
      rcases hmem with hgm | rfl
      · exact h1 g hgm
      · exact hfv

theorem uploadStep_valid (s : UploadState) (e : UploadEvent)
    (h : uploadFilesValid s) : uploadFilesValid (uploadStep s e) := by
  cases e with
  | selectFile f => exact reconcileEffect_valid s _ (handleFileChange_valid f s h)
  | removeFile => exact reconcileEffect_valid s _ (handleRemoveFile_valid s h)
  | clickUpload resp => exact reconcileEffect_valid s _ (handleUpload_valid resp s h)

theorem runUpload_valid (es : List UploadEvent) : uploadFilesValid (runUpload es) := by
  have key : ∀ s, uploadFilesValid s → uploadFilesValid (es.foldl uploadStep s) := by
    induction es with
    | nil => exact fun s hs => hs
    | cons e rest ih =>
      intro s hs
      simpa [List.foldl_cons] using ih (uploadStep s e) (uploadStep_valid s e hs)
  exact key initUpload ⟨by simp [initUpload], by simp [initUpload]⟩

/-- C9: a file whose MIME type is unsupported or whose size exceeds 50MB is
    rejected before any network call: selecting it surfaces an error message at
    once, it is not held as the pending upload, and no upload request is ever
    issued for it. -/
theorem upload_validation_guard (f : FileInfo) (es : List UploadEvent)
    (h : (validateFile f).1 = false) :
    f ∉ (runUpload es).uploadRequests ∧
    (∃ m, (uploadStep (runUpload es) (UploadEvent.selectFile f)).error = some m) ∧
    (uploadStep (runUpload es) (UploadEvent.selectFile f)).file
      = (runUpload es).file ∧
    (uploadStep (runUpload es) (UploadEvent.selectFile f)).uploadRequests
      = (runUpload es).uploadRequests := by
  have hv := runUpload_valid es
  have hx := reconcileEffect_fields (runUpload es) (handleFileChange f (runUpload es))
  have hstep : uploadStep (runUpload es) (UploadEvent.selectFile f)
      = reconcileEffect (runUpload es) (handleFileChange f (runUpload es)) := rfl
  refine ⟨fun hmem => ?_, ?_, ?_, ?_⟩
  · have := hv.1 f hmem
    rw [h] at this
    exact Bool.noConfusion this
  · have hmsg : ∃ m, (validateFile f).2 = some m := by
      by_cases hc : f.mime ∈ supportedFormats
      · by_cases hs : f.size > 50 * 1024 * 1024
        · exact ⟨"File is too large. Maximum size is 50MB.",
            by simp [validateFile, hc, hs]⟩
        · exfalso
          have : (validateFile f).1 = true := by simp [validateFile, hc, hs]
          rw [h] at this
          exact Bool.noConfusion this
      · exact ⟨"Unsupported file type. Please upload an image or video file.",
          by simp [validateFile, hc]⟩
    obtain ⟨m, hm⟩ := hmsg
    refine ⟨m, ?_⟩
    rw [hstep, hx.2.2.2.1]
    simp [handleFileChange, h, hm]
  · rw [hstep, hx.1]
    simp [handleFileChange, h]
  · rw [hstep, hx.2.1]
    simp [handleFileChange, h]

/-- Witness for C9 with a text file rejected by type. -/
theorem upload_validation_guard_witness :
    ({ name := "x.txt", mime := "text/plain", size := 10 } : FileInfo)
      ∉ (runUpload []).uploadRequests ∧
    (uploadStep (runUpload [])
        (UploadEvent.selectFile { name := "x.txt", mime := "text/plain", size := 10 })).file
      = (runUpload []).file :=
  ⟨(upload_validation_guard { name := "x.txt", mime := "text/plain", size := 10 } []
      (by decide)).1,
   (upload_validation_guard { name := "x.txt", mime := "text/plain", size := 10 } []
      (by decide)).2.2.1⟩

theorem heldFalse_of_depNone (s : UploadState) (h : depOf s = none) :
    heldDetectionsNonEmpty s = false := by
  cases hr : s.result with
  | none => simp [heldDetectionsNonEmpty, hr]
  | some p =>
    cases hd : p.2.detections with
    | none => simp [heldDetectionsNonEmpty, hr, hd]
    | some l => simp [depOf, hr, hd] at h

theorem depOf_some (s : UploadState) (n : Nat) (h : depOf s = some n) :
    ∃ r, s.result = some (n, r) := by
  cases hr : s.result with
  | none => simp [depOf, hr] at h
  | some p =>
    obtain ⟨p1, p2⟩ := p
    cases hd : p2.detections with
    | none => simp [depOf, hr, hd] at h
    | some l =>
      simp [depOf, hr, hd] at h
      exact ⟨p2, by rw [h]⟩

theorem handleUpload_ok_fields (s : UploadState) (r : AnalyzeResult) (f : FileInfo)
    (hf : s.file = some f) :
    (handleUpload (Except.ok r) s).result = some (s.stampCounter, r) ∧
    (handleUpload (Except.ok r) s).stampCounter = s.stampCounter + 1 ∧
    (handleUpload (Except.ok r) s).lastAlert = s.lastAlert := by
  simp [handleUpload, hf]

theorem handleUpload_err_fields (s : UploadState) (m : String) (f : FileInfo)
    (hf : s.file = some f) :
    (handleUpload (Except.error m) s).result = s.result ∧
    (handleUpload (Except.error m) s).stampCounter = s.stampCounter ∧
    (handleUpload (Except.error m) s).lastAlert = false := by
  simp [handleUpload, hf]

theorem held_result (s : UploadState) (n : Nat) (r : AnalyzeResult)
    (h : s.result = some (n, r)) :
    heldDetectionsNonEmpty s = nonEmptyDetections r := by
  cases hd : r.detections <;>
    simp [heldDetectionsNonEmpty, nonEmptyDetections, h, hd]

theorem dep_result_none (s : UploadState) (n : Nat) (r : AnalyzeResult)
    (h : s.result = some (n, r)) (hd : r.detections = none) : depOf s = none := by
  simp [depOf, h, hd]

theorem dep_result_some (s : UploadState) (n : Nat) (r : AnalyzeResult)
    (l : List DetObj) (h : s.result = some (n, r)) (hd : r.detections = some l) :
    depOf s = some n := by
  simp [depOf, h, hd]

theorem clickOk_lastAlert (s : UploadState) (r : AnalyzeResult) (f : FileInfo)
    (hf : s.file = some f) (h : alertInv s) :
    (uploadStep s (UploadEvent.clickUpload (Except.ok r))).lastAlert
      = nonEmptyDetections r := by
  obtain ⟨hres, hct, hla⟩ := handleUpload_ok_fields s r f hf
  show (reconcileEffect s (handleUpload (Except.ok r) s)).lastAlert
    = nonEmptyDetections r
  cases hd : r.detections with
  | some l =>
    have hdep1 : depOf (handleUpload (Except.ok r) s) = some s.stampCounter :=
      dep_result_some _ _ _ _ hres hd
    have hne : ¬ depOf (handleUpload (Except.ok r) s) = depOf s := by
      rw [hdep1]
      cases hds : depOf s with
      | none => simp
      | some n =>
        obtain ⟨r0, hr0⟩ := depOf_some s n hds
        have hlt := h.2 n r0 hr0
        simp only [ne_eq, Option.some.injEq]
        omega
    rw [show reconcileEffect s (handleUpload (Except.ok r) s)
        = runAlertEffect (handleUpload (Except.ok r) s) by
      simp [reconcileEffect, hne]]
    show heldDetectionsNonEmpty (handleUpload (Except.ok r) s) = nonEmptyDetections r
    exact held_result _ _ _ hres
  | none =>
    have hdep1 : depOf (handleUpload (Except.ok r) s) = none :=
      dep_result_none _ _ _ hres hd
    have hner : nonEmptyDetections r = false := by simp [nonEmptyDetections, hd]
    by_cases hds : depOf (handleUpload (Except.ok r) s) = depOf s
    · rw [show reconcileEffect s (handleUpload (Except.ok r) s)
          = handleUpload (Except.ok r) s by simp [reconcileEffect, hds], hla, hner]
      rw [hdep1] at hds
      have hsf := heldFalse_of_depNone s hds.symm
      cases hsl : s.lastAlert with
      | false => rfl
      | true =>
        have hc := h.1 hsl
        rw [hsf] at hc
        exact Bool.noConfusion hc
    · rw [show reconcileEffect s (handleUpload (Except.ok r) s)
          = runAlertEffect (handleUpload (Except.ok r) s) by
        simp [reconcileEffect, hds], hner]
      show heldDetectionsNonEmpty (handleUpload (Except.ok r) s) = false
      rw [held_result _ _ _ hres, hner]

theorem clickErr_lastAlert (s : UploadState) (m : String) (f : FileInfo)
    (hf : s.file = some f) :
    (uploadStep s (UploadEvent.clickUpload (Except.error m))).lastAlert = false := by
  obtain ⟨hres, hct, hla⟩ := handleUpload_err_fields s m f hf
  have hdep : depOf (handleUpload (Except.error m) s) = depOf s := by
    simp [depOf, hres]
  show (reconcileEffect s (handleUpload (Except.error m) s)).lastAlert = false
  rw [show reconcileEffect s (handleUpload (Except.error m) s)
      = handleUpload (Except.error m) s by simp [reconcileEffect, hdep], hla]

theorem uploadStep_alertInv (s : UploadState) (e : UploadEvent) (h : alertInv s) :
    alertInv (uploadStep s e) := by
  cases e with
  | selectFile f =>
    have hres : (handleFileChange f s).result = s.result := by
      by_cases hv : (validateFile f).1 = true <;> simp [handleFileChange, hv]
    have hal : (handleFileChange f s).lastAlert = s.lastAlert := by
      by_cases hv : (validateFile f).1 = true <;> simp [handleFileChange, hv]
    have hct : (handleFileChange f s).stampCounter = s.stampCounter := by
      by_cases hv : (validateFile f).1 = true <;> simp [handleFileChange, hv]
    have hdep : depOf (handleFileChange f s) = depOf s := by simp [depOf, hres]
    show alertInv (reconcileEffect s (handleFileChange f s))
    rw [show reconcileEffect s (handleFileChange f s) = handleFileChange f s by
      simp [reconcileEffect, hdep]]
    refine ⟨fun hl => ?_, fun n r0 hr0 => ?_⟩
    · have hsl : s.lastAlert = true := hal.symm.trans hl
      have hh := h.1 hsl
      rw [show heldDetectionsNonEmpty (handleFileChange f s)
          = heldDetectionsNonEmpty s by simp [heldDetectionsNonEmpty, hres]]
      exact hh
    · rw [hct]
      exact h.2 n r0 (hres ▸ hr0)
  | removeFile =>
    have hdep1 : depOf (handleRemoveFile s) = none := by
      simp [depOf, handleRemoveFile]
    show alertInv (reconcileEffect s (handleRemoveFile s))
    by_cases hd : depOf (handleRemoveFile s) = depOf s
    · rw [show reconcileEffect s (handleRemoveFile s) = handleRemoveFile s by
        simp [reconcileEffect, hd]]
      refine ⟨fun hl => ?_, fun n r0 hr0 => ?_⟩
      · have hsl : s.lastAlert = true := hl
        have hdepnone : depOf s = none := hd.symm.trans hdep1
        have hsf := heldFalse_of_depNone s hdepnone
        have hc := h.1 hsl
        rw [hsf] at hc
        exact Bool.noConfusion hc
      · simp [handleRemoveFile] at hr0
    · rw [show reconcileEffect s (handleRemoveFile s)
          = runAlertEffect (handleRemoveFile s) by simp [reconcileEffect, hd]]
      refine ⟨fun hl => ?_, fun n r0 hr0 => ?_⟩
      · have hl2 : heldDetectionsNonEmpty (handleRemoveFile s) = true := hl
        rw [show heldDetectionsNonEmpty (handleRemoveFile s) = false by
          simp [heldDetectionsNonEmpty, handleRemoveFile]] at hl2
        exact Bool.noConfusion hl2
      · simp [runAlertEffect, handleRemoveFile] at hr0
  | clickUpload resp =>
    cases hf : s.file with
    | none =>
      show alertInv (reconcileEffect s (handleUpload resp s))
      rw [show handleUpload resp s = s by simp [handleUpload, hf],
        show reconcileEffect s s = s by simp [reconcileEffect]]
      exact h
    | some f =>
      cases resp with
      | error m =>
        obtain ⟨hres, hct, hla⟩ := handleUpload_err_fields s m f hf
        have hdep : depOf (handleUpload (Except.error m) s) = depOf s := by
          simp [depOf, hres]
        show alertInv (reconcileEffect s (handleUpload (Except.error m) s))
        rw [show reconcileEffect s (handleUpload (Except.error m) s)
            = handleUpload (Except.error m) s by simp [reconcileEffect, hdep]]
        refine ⟨fun hl => ?_, fun n r0 hr0 => ?_⟩
        · rw [hla] at hl
          exact Bool.noConfusion hl
        · rw [hct]
          exact h.2 n r0 (hres ▸ hr0)
      | ok r =>
        have hok := clickOk_lastAlert s r f hf h
        have hres2 : (uploadStep s (UploadEvent.clickUpload (Except.ok r))).result
            = some (s.stampCounter, r) := by
          show (reconcileEffect s (handleUpload (Except.ok r) s)).result = _
          rw [(reconcileEffect_fields _ _).2.2.1, (handleUpload_ok_fields s r f hf).1]
        have hct2 : (uploadStep s (UploadEvent.clickUpload (Except.ok r))).stampCounter
            = s.stampCounter + 1 := by
          show (reconcileEffect s (handleUpload (Except.ok r) s)).stampCounter = _
          rw [(reconcileEffect_fields _ _).2.2.2.2,
            (handleUpload_ok_fields s r f hf).2.1]
        refine ⟨fun hl => ?_, fun n r0 hr0 => ?_⟩
        · rw [held_result _ _ _ hres2]
          exact hok.symm.trans hl
        · rw [hres2] at hr0
          injection hr0 with hpair
          have hn : n = s.stampCounter := (congrArg Prod.fst hpair).symm
          rw [hct2]
          omega

theorem runUpload_alertInv (es : List UploadEvent) : alertInv (runUpload es) := by
  have key : ∀ s, alertInv s → alertInv (es.foldl uploadStep s) := by
    induction es with
    | nil => exact fun s hs => hs
    | cons e rest ih =>
      intro s hs
      simpa [List.foldl_cons] using ih (uploadStep s e) (uploadStep_alertInv s e hs)
  exact key initUpload ⟨by simp [initUpload], by simp [initUpload]⟩

/-- C4 counterexample: a successful upload holding one gun detection followed by a
    failed re-upload leaves the held detections list non-empty while the last
    setAlert call is false — the code forces the alert off on failure without
    clearing the held result, so the held result and the alert are not in
    lockstep as the claim requires. -/
theorem upload_alert_counterexample :
    heldDetectionsNonEmpty (runUpload
      [UploadEvent.selectFile { name := "a.png", mime := "image/png", size := 4 },
       UploadEvent.clickUpload (Except.ok
         { message := "ok", resultUrl := none,
           detections := some [{ cls := "gun", confidence := mkRat 81 100 }] }),
       UploadEvent.clickUpload (Except.error "Failed to upload file")]) = true ∧
    (runUpload
      [UploadEvent.selectFile { name := "a.png", mime := "image/png", size := 4 },
       UploadEvent.clickUpload (Except.ok
         { message := "ok", resultUrl := none,
           detections := some [{ cls := "gun", confidence := mkRat 81 100 }] }),
       UploadEvent.clickUpload (Except.error "Failed to upload file")]).lastAlert
      = false := by
  decide

/-- C4 amended: the alert tracks the held analyze result except that an upload
    failure forces setAlert(false) without clearing the held result: the alert is
    true only while the held detections list is non-empty, a successful upload
    sets the alert to exactly whether its detections are non-empty, every failed
    upload attempt leaves the alert false, and before any upload the alert is
    false. -/
theorem upload_alert_tracking (es : List UploadEvent) (r : AnalyzeResult)
    (m : String) :
    ((runUpload es).lastAlert = true → heldDetectionsNonEmpty (runUpload es) = true) ∧
    (∀ f, (runUpload es).file = some f →
      (uploadStep (runUpload es) (UploadEvent.clickUpload (Except.ok r))).lastAlert
        = nonEmptyDetections r) ∧
    (∀ f, (runUpload es).file = some f →
      (uploadStep (runUpload es)
        (UploadEvent.clickUpload (Except.error m))).lastAlert = false) ∧
    initUpload.lastAlert = false :=
  ⟨(runUpload_alertInv es).1,
   fun f hf => clickOk_lastAlert (runUpload es) r f hf (runUpload_alertInv es),
   fun f hf => clickErr_lastAlert (runUpload es) m f hf,
   rfl⟩

/-- Witness for the amended C4: with a valid file held, a failing upload leaves
    the alert off. -/
theorem upload_alert_tracking_witness :
    (uploadStep (runUpload
        [UploadEvent.selectFile { name := "a.png", mime := "image/png", size := 4 }])
      (UploadEvent.clickUpload (Except.error "boom"))).lastAlert = false :=
  (upload_alert_tracking
      [UploadEvent.selectFile { name := "a.png", mime := "image/png", size := 4 }]
      { message := "ok", resultUrl := none, detections := none } "boom").2.2.1
    { name := "a.png", mime := "image/png", size := 4 } (by decide)
